import Mathlib

/-!
Verification of the dataset-transformation core of the DPO fine-tuning
notebook (src/Finetuning/DPO_Finetuning.ipynb).

The notebook's transformation functions operate on Python dictionaries and
lists.  We embed that dynamic data model shallowly as the inductive type
`JValue` (strings, arrays, objects), with Python's subscript access
(`d[key]`, raising `KeyError` / `TypeError`) modelled by `JValue.lookup`
returning `Except String JValue`, and Python's `for x in v` iteration
modelled by the total function `JValue.iterElems` (lists iterate their
elements, strings their characters, dicts their keys).

The three functions of the source are embedded as:
  - `convert_raw_example_dyn`   : the loop body of `convert_to_preference_dataset`
  - `convert_to_preference_dataset_dyn` : the whole conversion over both splits
  - `convert_preference_to_sft_format_dyn` : the preference-to-SFT formatter
  - `sftStep` / `runSplit` / `process_preference_to_sft` : the SFT driver loop
    with its try/except per-record error handling, running success count,
    error log and progress log.

A small typed layer (`RawExample`, `ChatMessage`, `PreferenceRecord`,
`SupervisedRecord`) describes the record shapes the notebook builds, with
`toJValue` encodings into the dynamic model.

JSON-lines serialization (`json.dumps` with default separators and
`ensure_ascii=True`, and `json.loads`) is embedded by `dumps`/`loads`
further below.
-/

namespace DPO

/-- Dynamic values: the subset of Python/JSON values the notebook's
transformation pipeline manipulates (strings, lists, string-keyed dicts). -/
inductive JValue where
  | str (s : String)
  | arr (elems : List JValue)
  | obj (fields : List (String × JValue))

/-- First binding of a key in a field list (Python dicts built by the source
never repeat keys, so first = only). -/
def getField : List (String × JValue) → String → Option JValue
  | [], _ => none
  | (k, v) :: fs, key => if k = key then some v else getField fs key

/-- Python subscript `d[key]` with a string key: `KeyError` on a missing dict
key, `TypeError` when the value is not a dict. -/
def JValue.lookup : JValue → String → Except String JValue
  | .obj fs, key =>
    match getField fs key with
    | some v => .ok v
    | none => .error ("KeyError: " ++ key)
  | .str _, key => .error ("TypeError: string indices must be integers: " ++ key)
  | .arr _, key => .error ("TypeError: list indices must be integers: " ++ key)

/-- Python iteration `for x in v`: lists yield their elements, strings their
one-character substrings, dicts their keys.  Every `JValue` is iterable. -/
def JValue.iterElems : JValue → List JValue
  | .arr xs => xs
  | .str s => s.data.map (fun ch => .str (String.mk [ch]))
  | .obj fs => fs.map (fun f => .str f.1)

/-- Boolean success test for `Except`. -/
def exOk {ε α : Type} : Except ε α → Bool
  | .ok _ => true
  | .error _ => false

/-- A chat message dict as built by the source:
`\x7b"role": role, "content": content\x7d`. -/
def mkMsg (role : String) (content : JValue) : JValue :=
  .obj [("role", .str role), ("content", content)]

/-- Loop body of `convert_to_preference_dataset`: build the messages list,
the preferred and the non-preferred outputs from one raw example, in the
source's field-access order (`prompt`, `chosen_response`,
`rejected_response`). -/
def convert_raw_example_dyn (exm : JValue) : Except String JValue :=
  match exm.lookup "prompt" with
  | .error m => .error m
  | .ok p =>
    match exm.lookup "chosen_response" with
    | .error m => .error m
    | .ok c =>
      match exm.lookup "rejected_response" with
      | .error m => .error m
      | .ok r =>
        .ok (.obj
          [("input", .obj [("messages", .arr [mkMsg "user" p])]),
           ("preferred_output", .arr [mkMsg "assistant" c]),
           ("non_preferred_output", .arr [mkMsg "assistant" r])])

/-- The inner `for example in dataset[split]` loop: convert every example,
appending to the split's list; any failure propagates (the source has no
try/except here). -/
def convertSplit : List JValue → Except String (List JValue)
  | [] => .ok []
  | e :: rest =>
    match convert_raw_example_dyn e with
    | .error m => .error m
    | .ok r =>
      match convertSplit rest with
      | .error m => .error m
      | .ok rs => .ok (r :: rs)

/-- The function `convert_to_preference_dataset`: iterate the splits `train` then
`validation` (both are accessed unconditionally), converting every example
of each; returns the dict of converted splits. -/
def convert_to_preference_dataset_dyn (dataset : JValue) : Except String JValue :=
  match dataset.lookup "train" with
  | .error m => .error m
  | .ok trainSplit =>
    match convertSplit trainSplit.iterElems with
    | .error m => .error m
    | .ok trainConv =>
      match dataset.lookup "validation" with
      | .error m => .error m
      | .ok valSplit =>
        match convertSplit valSplit.iterElems with
        | .error m => .error m
        | .ok valConv =>
          .ok (.obj [("train", .arr trainConv), ("validation", .arr valConv)])

/-- The function `convert_preference_to_sft_format`: copy `data["input"]["messages"]`,
extend with `data["preferred_output"]`, and wrap as `\x7b"messages": ...\x7d`.
Failures are the Python `KeyError`/`TypeError` of the subscripts; iteration
itself is total. -/
def convert_preference_to_sft_format_dyn (data : JValue) : Except String JValue :=
  match data.lookup "input" with
  | .error m => .error m
  | .ok inputField =>
    match inputField.lookup "messages" with
    | .error m => .error m
    | .ok msgsField =>
      match data.lookup "preferred_output" with
      | .error m => .error m
      | .ok prefField =>
        .ok (.obj [("messages", .arr (msgsField.iterElems ++ prefField.iterElems))])

/-- State of the `process_preference_to_sft` loop: records written to the
output file (in order), the running `line_count`, the example numbers
printed by the except-branch (`line_count + 1` at the time of the failure),
and the numbers printed by the progress branch. -/
structure SftState where
  written : List JValue
  line_count : Nat
  error_log : List Nat
  progress_log : List Nat

/-- One iteration of the `for example in input_data[split]` loop of
`process_preference_to_sft`: on success write the converted record and
bump `line_count` (printing progress every 2000 records on the train
split); on any exception print the error with `line_count + 1` and
continue. -/
def sftStep (split : String) (st : SftState) (exm : JValue) : SftState :=
  match convert_preference_to_sft_format_dyn exm with
  | .ok r =>
    ⟨st.written ++ [r], st.line_count + 1, st.error_log,
      if (st.line_count + 1) % 2000 = 0 ∧ split = "train" then
        st.progress_log ++ [st.line_count + 1]
      else st.progress_log⟩
  | .error _ => ⟨st.written, st.line_count, st.error_log ++ [st.line_count + 1], st.progress_log⟩

/-- The whole per-split loop, from an empty file and zero count. -/
def runSplit (split : String) (examples : List JValue) : SftState :=
  examples.foldl (sftStep split) ⟨[], 0, [], []⟩

/-- The function `process_preference_to_sft`: the split subscript happens outside the
try/except, so a missing split propagates; otherwise the loop runs over the
split's examples. -/
def process_preference_to_sft (input_data : JValue) (split : String) :
    Except String SftState :=
  match input_data.lookup split with
  | .error m => .error m
  | .ok splitData => .ok (runSplit split splitData.iterElems)

/-- Typed chat message, the shape `mkMsg` builds with a string content. -/
structure ChatMessage where
  role : String
  content : String

/-- Typed raw example: one row of the HelpSteer2-DPO dataset. -/
structure RawExample where
  prompt : String
  chosen_response : String
  rejected_response : String

/-- The `input` wrapper of a preference record. -/
structure PreferenceInput where
  messages : List ChatMessage

/-- Typed preference record, the shape `convert_to_preference_dataset`
builds for each example. -/
structure PreferenceRecord where
  input : PreferenceInput
  preferred_output : List ChatMessage
  non_preferred_output : List ChatMessage

/-- Typed supervised record, the shape `convert_preference_to_sft_format`
builds. -/
structure SupervisedRecord where
  messages : List ChatMessage

def ChatMessage.toJValue (m : ChatMessage) : JValue :=
  .obj [("role", .str m.role), ("content", .str m.content)]

def RawExample.toJValue (r : RawExample) : JValue :=
  .obj [("prompt", .str r.prompt), ("chosen_response", .str r.chosen_response),
        ("rejected_response", .str r.rejected_response)]

def PreferenceRecord.toJValue (p : PreferenceRecord) : JValue :=
  .obj [("input", .obj [("messages", .arr (p.input.messages.map ChatMessage.toJValue))]),
        ("preferred_output", .arr (p.preferred_output.map ChatMessage.toJValue)),
        ("non_preferred_output", .arr (p.non_preferred_output.map ChatMessage.toJValue))]

def SupervisedRecord.toJValue (s : SupervisedRecord) : JValue :=
  .obj [("messages", .arr (s.messages.map ChatMessage.toJValue))]

/-- The typed view of the loop body of `convert_to_preference_dataset`. -/
def convertRawExample (e : RawExample) : PreferenceRecord :=
  ⟨⟨[⟨"user", e.prompt⟩]⟩, [⟨"assistant", e.chosen_response⟩],
    [⟨"assistant", e.rejected_response⟩]⟩

theorem convert_raw_example_dyn_toJValue (r : RawExample) :
    convert_raw_example_dyn r.toJValue = .ok (convertRawExample r).toJValue := rfl

/-- Claim C1: for every raw example with string fields `prompt`,
`chosen_response` and `rejected_response`, the preference formatter produces
exactly the record whose `input.messages` is the single user message holding
the prompt, whose `preferred_output` is the single assistant message holding
the chosen response, and whose `non_preferred_output` is the single
assistant message holding the rejected response, with contents verbatim. -/
theorem preference_format_exact (p c r : String) :
    convert_raw_example_dyn
      (.obj [("prompt", .str p), ("chosen_response", .str c),
             ("rejected_response", .str r)])
    = .ok (.obj
        [("input", .obj [("messages",
            .arr [.obj [("role", .str "user"), ("content", .str p)]])]),
         ("preferred_output",
            .arr [.obj [("role", .str "assistant"), ("content", .str c)]]),
         ("non_preferred_output",
            .arr [.obj [("role", .str "assistant"), ("content", .str r)]])]) := rfl

/-- Claim C2: the supervised formatter returns the record whose `messages`
field is the concatenation of the input messages and the preferred output,
in order, dropping `non_preferred_output`; when `preferred_output` has
exactly one element the result length is one more than the input length. -/
theorem sft_format_concat (msgs pref np : List JValue) :
    convert_preference_to_sft_format_dyn
      (.obj [("input", .obj [("messages", .arr msgs)]),
             ("preferred_output", .arr pref),
             ("non_preferred_output", .arr np)])
      = .ok (.obj [("messages", .arr (msgs ++ pref))])
    ∧ (pref.length = 1 → (msgs ++ pref).length = msgs.length + 1) := by
  constructor
  · rfl
  · intro h; simp [h]

/-- Witness for C2 at a concrete record. -/
theorem sft_format_concat_witness :
    (convert_preference_to_sft_format_dyn
      (.obj [("input", .obj [("messages", .arr [mkMsg "user" (.str "c#")])]),
             ("preferred_output", .arr [mkMsg "assistant" (.str "A")]),
             ("non_preferred_output", .arr [mkMsg "assistant" (.str "B")])])
      = .ok (.obj [("messages",
          .arr ([mkMsg "user" (.str "c#")] ++ [mkMsg "assistant" (.str "A")]))]))
    ∧ ([mkMsg "user" (.str "c#")] ++ [mkMsg "assistant" (.str "A")]).length
        = [mkMsg "user" (.str "c#")].length + 1 :=
  ⟨(sft_format_concat [mkMsg "user" (.str "c#")] [mkMsg "assistant" (.str "A")]
      [mkMsg "assistant" (.str "B")]).1,
   (sft_format_concat [mkMsg "user" (.str "c#")] [mkMsg "assistant" (.str "A")]
      [mkMsg "assistant" (.str "B")]).2 rfl⟩

/-- Claim C3 counterexample: a record whose `preferred_output` has two
elements is accepted by the supervised formatter (it succeeds, contradicting
the claim that a `preferred_output` that is not exactly one element fails). -/
theorem sft_format_no_length_check :
    exOk (convert_preference_to_sft_format_dyn
      (.obj [("input", .obj [("messages", .arr [mkMsg "user" (.str "q")])]),
             ("preferred_output",
               .arr [mkMsg "assistant" (.str "a"), mkMsg "assistant" (.str "b")]),
             ("non_preferred_output", .arr [])])) = true := rfl

/-- Claim C3 (amended): the supervised formatter fails exactly on absent or
non-dict structure — a record without `input`, a record whose `input` lacks
`messages`, or a record without `preferred_output` fails with an error; but
a `preferred_output` list of any length (zero, one, or many) succeeds, no
length validation is performed. -/
theorem sft_format_error_conditions :
    (∀ pref np : JValue,
      exOk (convert_preference_to_sft_format_dyn
        (.obj [("preferred_output", pref), ("non_preferred_output", np)])) = false)
    ∧ (∀ pref np : JValue,
      exOk (convert_preference_to_sft_format_dyn
        (.obj [("input", .obj []), ("preferred_output", pref),
               ("non_preferred_output", np)])) = false)
    ∧ (∀ msgs : List JValue, ∀ np : JValue,
      exOk (convert_preference_to_sft_format_dyn
        (.obj [("input", .obj [("messages", .arr msgs)]),
               ("non_preferred_output", np)])) = false)
    ∧ (∀ msgs pref : List JValue, ∀ np : JValue,
      convert_preference_to_sft_format_dyn
        (.obj [("input", .obj [("messages", .arr msgs)]),
               ("preferred_output", .arr pref), ("non_preferred_output", np)])
        = .ok (.obj [("messages", .arr (msgs ++ pref))])) :=
  ⟨fun _ _ => rfl, fun _ _ => rfl, fun _ _ => rfl, fun _ _ _ => rfl⟩

/-- Claim C6: the supervised formatter's result depends only on the `input`
and `preferred_output` subscripts; two records agreeing there (and differing
arbitrarily elsewhere, in particular in `non_preferred_output`) map to equal
results. -/
theorem sft_format_ignores_rejected (p q : JValue)
    (h1 : p.lookup "input" = q.lookup "input")
    (h2 : p.lookup "preferred_output" = q.lookup "preferred_output") :
    convert_preference_to_sft_format_dyn p = convert_preference_to_sft_format_dyn q := by
  unfold convert_preference_to_sft_format_dyn
  rw [h1, h2]

/-- Witness for C6: two concrete records differing only in
`non_preferred_output` produce the same supervised record. -/
theorem sft_format_ignores_rejected_witness :
    convert_preference_to_sft_format_dyn
      (.obj [("input", .obj [("messages", .arr [mkMsg "user" (.str "q")])]),
             ("preferred_output", .arr [mkMsg "assistant" (.str "good")]),
             ("non_preferred_output", .arr [mkMsg "assistant" (.str "bad")])])
    = convert_preference_to_sft_format_dyn
      (.obj [("input", .obj [("messages", .arr [mkMsg "user" (.str "q")])]),
             ("preferred_output", .arr [mkMsg "assistant" (.str "good")]),
             ("non_preferred_output", .arr [mkMsg "assistant" (.str "worse")])]) :=
  sft_format_ignores_rejected _ _ rfl rfl

/-- Claim C7: the preference formatter succeeds on every raw example whose
three fields are present strings, and empty strings pass through verbatim
into a well-formed record. -/
theorem preference_format_total_on_strings :
    (∀ p c r : String,
      exOk (convert_raw_example_dyn (RawExample.toJValue ⟨p, c, r⟩)) = true)
    ∧ convert_raw_example_dyn (RawExample.toJValue ⟨"", "", ""⟩)
        = .ok (PreferenceRecord.toJValue (convertRawExample ⟨"", "", ""⟩)) :=
  ⟨fun _ _ _ => rfl, rfl⟩

/-- The example numbers printed by the except-branch of the loop, started
with `line_count = k`: a failing record is reported as one plus the number
of records successfully converted so far. -/
def errLogFrom : List JValue → Nat → List Nat
  | [], _ => []
  | e :: rest, k =>
    match convert_preference_to_sft_format_dyn e with
    | .ok _ => errLogFrom rest (k + 1)
    | .error _ => (k + 1) :: errLogFrom rest k

lemma foldl_sftStep_written (split : String) (examples : List JValue) :
    ∀ st : SftState,
      (examples.foldl (sftStep split) st).written
        = st.written
          ++ examples.filterMap (fun e => (convert_preference_to_sft_format_dyn e).toOption) := by
  induction examples with
  | nil => intro st; simp
  | cons e rest ih =>
    intro st
    rcases he : convert_preference_to_sft_format_dyn e with m | v <;>
      simp [List.foldl_cons, sftStep, he, ih, Except.toOption]

lemma foldl_sftStep_count (split : String) (examples : List JValue) :
    ∀ st : SftState,
      (examples.foldl (sftStep split) st).line_count
        = st.line_count
          + examples.countP (fun e => exOk (convert_preference_to_sft_format_dyn e)) := by
  induction examples with
  | nil => intro st; simp
  | cons e rest ih =>
    intro st
    rcases he : convert_preference_to_sft_format_dyn e with m | v
    · simp [List.foldl_cons, sftStep, he, ih, List.countP_cons, exOk]
    · simp [List.foldl_cons, sftStep, he, ih, List.countP_cons, exOk]
      omega

lemma foldl_sftStep_errors (split : String) (examples : List JValue) :
    ∀ st : SftState,
      (examples.foldl (sftStep split) st).error_log
        = st.error_log ++ errLogFrom examples st.line_count := by
  induction examples with
  | nil => intro st; simp [errLogFrom]
  | cons e rest ih =>
    intro st
    rcases he : convert_preference_to_sft_format_dyn e with m | v <;>
      simp [List.foldl_cons, sftStep, he, ih, errLogFrom]

lemma filterMap_toOption_length (examples : List JValue) :
    (examples.filterMap
        (fun e => (convert_preference_to_sft_format_dyn e).toOption)).length
      = examples.countP (fun e => exOk (convert_preference_to_sft_format_dyn e)) := by
  induction examples with
  | nil => simp
  | cons e rest ih =>
    rcases he : convert_preference_to_sft_format_dyn e with m | v
    · have h1 : (convert_preference_to_sft_format_dyn e).toOption = none := by
        rw [he]; rfl
      have h2 : exOk (convert_preference_to_sft_format_dyn e) = false := by
        rw [he]; rfl
      simp only [List.filterMap_cons, List.countP_cons, h1, h2]
      simp [ih]
    · have h1 : (convert_preference_to_sft_format_dyn e).toOption = some v := by
        rw [he]; rfl
      have h2 : exOk (convert_preference_to_sft_format_dyn e) = true := by
        rw [he]; rfl
      simp only [List.filterMap_cons, List.countP_cons, h1, h2]
      simp [ih]

lemma countP_ok_of_all_ok (examples : List JValue)
    (h : ∀ e ∈ examples, exOk (convert_preference_to_sft_format_dyn e) = true) :
    examples.countP (fun e => exOk (convert_preference_to_sft_format_dyn e))
      = examples.length := by
  induction examples with
  | nil => rfl
  | cons e rest ih =>
    have h1 := h e (List.mem_cons_self e rest)
    rw [List.countP_cons]
    simp only [h1, if_true]
    rw [ih (fun x hx => h x (List.mem_cons_of_mem e hx))]
    simp

lemma errLogFrom_length (examples : List JValue) :
    ∀ k : Nat,
      (errLogFrom examples k).length
        + examples.countP (fun e => exOk (convert_preference_to_sft_format_dyn e))
        = examples.length := by
  induction examples with
  | nil => intro k; simp [errLogFrom]
  | cons e rest ih =>
    intro k
    have h1 := ih k
    have h2 := ih (k + 1)
    rcases he : convert_preference_to_sft_format_dyn e with m | v
    · have hstep : errLogFrom (e :: rest) k = (k + 1) :: errLogFrom rest k := by
        simp [errLogFrom, he]
      have h2 : exOk (convert_preference_to_sft_format_dyn e) = false := by
        rw [he]; rfl
      rw [hstep]
      simp only [List.countP_cons, h2, List.length_cons]
      simp
      omega
    · have hstep : errLogFrom (e :: rest) k = errLogFrom rest (k + 1) := by
        simp [errLogFrom, he]
      have h2 : exOk (convert_preference_to_sft_format_dyn e) = true := by
        rw [he]; rfl
      rw [hstep]
      simp only [List.countP_cons, h2, List.length_cons]
      simp
      omega

lemma errLogFrom_nil_of_all_ok (examples : List JValue)
    (h : ∀ e ∈ examples, exOk (convert_preference_to_sft_format_dyn e) = true) :
    ∀ k : Nat, errLogFrom examples k = [] := by
  induction examples with
  | nil => intro k; rfl
  | cons e rest ih =>
    intro k
    rcases he : convert_preference_to_sft_format_dyn e with m | v
    · have := h e (List.mem_cons_self e rest)
      rw [he] at this
      simp [exOk] at this
    · simp [errLogFrom, he]
      exact ih (fun x hx => h x (List.mem_cons_of_mem e hx)) (k + 1)

/-- Claim C4 counterexample: two failing records in a row are both reported
as example 1 — the second failure sits at ordinal position 2 of the input
sequence but is logged with `line_count + 1 = 1`, so the logged number is
not the record's ordinal position. -/
theorem sft_error_positions_cex :
    process_preference_to_sft
        (.obj [("validation", .arr [JValue.obj [], JValue.obj []])]) "validation"
      = .ok ⟨[], 0, [1, 1], []⟩
    ∧ ([1, 1] : List Nat) ≠ [1, 2] := ⟨rfl, by decide⟩

/-- Claim C4 (amended): every per-record failure is caught and logged with
one plus the number of successfully converted records so far (which equals
the record's ordinal position only when no earlier record of the split
failed), processing continues through the whole split, and the final
running count equals the number of successfully converted and written
records. -/
theorem sft_per_record_error_handling (split : String) (examples : List JValue) :
    (runSplit split examples).line_count = (runSplit split examples).written.length
    ∧ (runSplit split examples).written.length
        + (runSplit split examples).error_log.length = examples.length
    ∧ (runSplit split examples).error_log = errLogFrom examples 0
    ∧ process_preference_to_sft (.obj [(split, .arr examples)]) split
        = .ok (runSplit split examples) := by
  have hw := foldl_sftStep_written split examples ⟨[], 0, [], []⟩
  have hc := foldl_sftStep_count split examples ⟨[], 0, [], []⟩
  have he := foldl_sftStep_errors split examples ⟨[], 0, [], []⟩
  have hlen := filterMap_toOption_length examples
  refine ⟨?_, ?_, ?_, ?_⟩
  · rw [show runSplit split examples = examples.foldl (sftStep split) ⟨[], 0, [], []⟩ from rfl,
      hw, hc]
    simp [hlen]
  · rw [show runSplit split examples = examples.foldl (sftStep split) ⟨[], 0, [], []⟩ from rfl,
      hw, he]
    have := errLogFrom_length examples 0
    simp [hlen]
    omega
  · rw [show runSplit split examples = examples.foldl (sftStep split) ⟨[], 0, [], []⟩ from rfl, he]
    simp
  · have hl : (JValue.obj [(split, JValue.arr examples)]).lookup split
        = .ok (.arr examples) := by
      simp [JValue.lookup, getField]
    unfold process_preference_to_sft
    rw [hl]
    rfl

lemma convertSplit_map (rs : List RawExample) :
    convertSplit (rs.map RawExample.toJValue)
      = .ok (rs.map (fun r => (convertRawExample r).toJValue)) := by
  induction rs with
  | nil => rfl
  | cons r rest ih =>
    simp [convertSplit, convert_raw_example_dyn_toJValue, ih]

/-- Claim C5: a dataset whose two splits hold well-formed raw examples is
converted to exactly one preference record per raw example, in source order
(the converted split is the elementwise image of the raw split under the
formatter); and a split of supervised conversions with no per-record
failure writes exactly one line per record, with the running count equal to
the number of records. -/
theorem pipeline_counts (trainRaw valRaw : List RawExample) :
    convert_to_preference_dataset_dyn
        (.obj [("train", .arr (trainRaw.map RawExample.toJValue)),
               ("validation", .arr (valRaw.map RawExample.toJValue))])
      = .ok (.obj
          [("train", .arr (trainRaw.map (fun r => (convertRawExample r).toJValue))),
           ("validation", .arr (valRaw.map (fun r => (convertRawExample r).toJValue)))])
    ∧ ∀ (split : String) (examples : List JValue),
        (∀ e ∈ examples, exOk (convert_preference_to_sft_format_dyn e) = true) →
        (runSplit split examples).written.length = examples.length
        ∧ (runSplit split examples).line_count = examples.length
        ∧ (runSplit split examples).error_log = [] := by
  constructor
  · have hl1 : (JValue.obj
        [("train", JValue.arr (trainRaw.map RawExample.toJValue)),
         ("validation", JValue.arr (valRaw.map RawExample.toJValue))]).lookup "train"
        = .ok (.arr (trainRaw.map RawExample.toJValue)) := by
      simp [JValue.lookup, getField]
    have hl2 : (JValue.obj
        [("train", JValue.arr (trainRaw.map RawExample.toJValue)),
         ("validation", JValue.arr (valRaw.map RawExample.toJValue))]).lookup "validation"
        = .ok (.arr (valRaw.map RawExample.toJValue)) := by
      simp [JValue.lookup, getField]
    unfold convert_to_preference_dataset_dyn
    rw [hl1]
    simp only [JValue.iterElems, convertSplit_map, hl2]
  · intro split examples h
    have hw := foldl_sftStep_written split examples ⟨[], 0, [], []⟩
    have hc := foldl_sftStep_count split examples ⟨[], 0, [], []⟩
    have he := foldl_sftStep_errors split examples ⟨[], 0, [], []⟩
    have hcount := countP_ok_of_all_ok examples h
    have hlen := filterMap_toOption_length examples
    refine ⟨?_, ?_, ?_⟩
    · rw [show runSplit split examples = examples.foldl (sftStep split) ⟨[], 0, [], []⟩ from rfl, hw]
      simp [hlen, hcount]
    · rw [show runSplit split examples = examples.foldl (sftStep split) ⟨[], 0, [], []⟩ from rfl, hc]
      simp [hcount]
    · rw [show runSplit split examples = examples.foldl (sftStep split) ⟨[], 0, [], []⟩ from rfl, he]
      simp [errLogFrom_nil_of_all_ok examples h 0]

/-- Witness for C5 at a concrete one-example dataset. -/
theorem pipeline_counts_witness :
    convert_to_preference_dataset_dyn
        (.obj [("train", .arr (([⟨"p", "c", "r"⟩] : List RawExample).map RawExample.toJValue)),
               ("validation", .arr [])])
      = .ok (.obj
          [("train", .arr [(convertRawExample ⟨"p", "c", "r"⟩).toJValue]),
           ("validation", .arr [])])
    ∧ (runSplit "train" [(convertRawExample ⟨"p", "c", "r"⟩).toJValue]).written.length = 1
    ∧ (runSplit "train" [(convertRawExample ⟨"p", "c", "r"⟩).toJValue]).line_count = 1
    ∧ (runSplit "train" [(convertRawExample ⟨"p", "c", "r"⟩).toJValue]).error_log = [] := by
  have h := pipeline_counts [⟨"p", "c", "r"⟩] []
  have h2 := h.2 "train" [(convertRawExample ⟨"p", "c", "r"⟩).toJValue]
    (by
      intro e hme
      rw [List.mem_singleton] at hme
      subst hme
      rfl)
  exact ⟨h.1, h2.1, h2.2.1, h2.2.2⟩

lemma convertSplit_error_of_mem (l : List JValue)
    (h : ∃ e ∈ l, exOk (convert_raw_example_dyn e) = false) :
    exOk (convertSplit l) = false := by
  induction l with
  | nil =>
    rcases h with ⟨e, hme, _⟩
    exact absurd hme (List.not_mem_nil e)
  | cons x rest ih =>
    rcases hx : convert_raw_example_dyn x with m | v
    · simp [convertSplit, hx, exOk]
    · rcases h with ⟨e, hme, hbad⟩
      rcases List.mem_cons.mp hme with rfl | hmem
      · rw [hx] at hbad
        simp [exOk] at hbad
      · have := ih ⟨e, hmem, hbad⟩
        rcases hr : convertSplit rest with m | vs
        · simp [convertSplit, hx, hr, exOk]
        · rw [hr] at this
          simp [exOk] at this

/-- Claim C10: the preference-format conversion is all-or-nothing across
both splits: a dataset missing either split fails, and one failing record
in either split makes the whole conversion return an error (no converted
sequence for any split). -/
theorem preference_conversion_all_or_nothing :
    (∀ tr vl : List JValue,
      ((∃ e ∈ tr, exOk (convert_raw_example_dyn e) = false)
        ∨ (∃ e ∈ vl, exOk (convert_raw_example_dyn e) = false)) →
      exOk (convert_to_preference_dataset_dyn
        (.obj [("train", .arr tr), ("validation", .arr vl)])) = false)
    ∧ (∀ v : JValue,
        exOk (convert_to_preference_dataset_dyn (.obj [("train", v)])) = false)
    ∧ (∀ v : JValue,
        exOk (convert_to_preference_dataset_dyn (.obj [("validation", v)])) = false) := by
  refine ⟨?_, ?_, ?_⟩
  · intro tr vl h
    rcases h with h | h
    · have := convertSplit_error_of_mem tr h
      rcases hr : convertSplit tr with m | vs
      · simp [convert_to_preference_dataset_dyn, JValue.lookup, getField,
          JValue.iterElems, hr, exOk]
      · rw [hr] at this
        simp [exOk] at this
    · have := convertSplit_error_of_mem vl h
      rcases hr : convertSplit tr with m | vs
      · simp [convert_to_preference_dataset_dyn, JValue.lookup, getField,
          JValue.iterElems, hr, exOk]
      · rcases hr2 : convertSplit vl with m2 | vs2
        · simp [convert_to_preference_dataset_dyn, JValue.lookup, getField,
            JValue.iterElems, hr, hr2, exOk]
        · rw [hr2] at this
          simp [exOk] at this
  · intro v
    rcases hr : convertSplit v.iterElems with m | vs <;>
      simp [convert_to_preference_dataset_dyn, JValue.lookup, getField, hr, exOk]
  · intro v
    simp [convert_to_preference_dataset_dyn, JValue.lookup, getField, exOk]

/-- Witness for C10: a one-record train split whose record is an empty dict
(no `prompt` field) makes the whole conversion fail. -/
theorem preference_conversion_all_or_nothing_witness :
    exOk (convert_to_preference_dataset_dyn
      (.obj [("train", .arr [JValue.obj []]), ("validation", .arr [])])) = false :=
  preference_conversion_all_or_nothing.1 [JValue.obj []] []
    (Or.inl ⟨JValue.obj [], List.mem_singleton.mpr rfl, rfl⟩)

/-- Claim C9: applying the supervised formatter to its own output shape — a
record having only a `messages` field — fails with a `KeyError` on `input`
instead of returning a record. -/
theorem sft_format_not_iterable (msgs : List JValue) :
    convert_preference_to_sft_format_dyn (.obj [("messages", .arr msgs)])
      = .error ("KeyError: " ++ "input") := rfl

/-!
JSON-lines serialization.  The notebook writes `json.dumps(record)` per
line with the default separators (`", "` between items, `": "` after keys)
and `ensure_ascii=True` (every character outside printable ASCII is written
as a `\uXXXX` escape, astral characters as a surrogate pair), and records
are read back with `json.loads`.  `dumps`/`loads` below embed exactly that
for the value subset the pipeline produces (strings, arrays, objects).
-/

/-- The opening-brace character. -/
def lbrace : Char := Char.ofNat 123

/-- The closing-brace character. -/
def rbrace : Char := Char.ofNat 125

/-- Lowercase hexadecimal digit, as printed by Python's `"%04x"` format. -/
def hexDigit (n : Nat) : Char :=
  if n < 10 then Char.ofNat (48 + n) else Char.ofNat (87 + n)

/-- Hex digit value of a character (accepting both cases, as `json.loads`
does). -/
def decodeHex (c : Char) : Option Nat :=
  if 48 ≤ c.toNat ∧ c.toNat ≤ 57 then some (c.toNat - 48)
  else if 97 ≤ c.toNat ∧ c.toNat ≤ 102 then some (c.toNat - 87)
  else if 65 ≤ c.toNat ∧ c.toNat ≤ 70 then some (c.toNat - 55)
  else none

/-- Four lowercase hex digits, as in Python's `"\\u%04x"` escapes. -/
def hex4 (n : Nat) : List Char :=
  [hexDigit (n / 4096 % 16), hexDigit (n / 256 % 16),
   hexDigit (n / 16 % 16), hexDigit (n % 16)]

/-- Value of four hex digits. -/
def readHex4 (a b c d : Char) : Option Nat :=
  match decodeHex a, decodeHex b, decodeHex c, decodeHex d with
  | some x, some y, some z, some w => some (x * 4096 + y * 256 + z * 16 + w)
  | _, _, _, _ => none

/-- Encoding of one character inside a JSON string literal, following
Python's `json.dumps` with `ensure_ascii=True`: the named escapes, `\uXXXX`
for other control characters and for everything above `~`, and surrogate
pairs for astral characters. -/
def encodeChar (c : Char) : List Char :=
  if c = '"' then ['\\', '"']
  else if c = '\\' then ['\\', '\\']
  else if c = '\n' then ['\\', 'n']
  else if c = '\r' then ['\\', 'r']
  else if c = '\t' then ['\\', 't']
  else if c = Char.ofNat 8 then ['\\', 'b']
  else if c = Char.ofNat 12 then ['\\', 'f']
  else if c.toNat < 32 then '\\' :: 'u' :: hex4 c.toNat
  else if c.toNat < 127 then [c]
  else if c.toNat < 65536 then '\\' :: 'u' :: hex4 c.toNat
  else
    '\\' :: 'u' :: hex4 (55296 + (c.toNat - 65536) / 1024)
      ++ '\\' :: 'u' :: hex4 (56320 + (c.toNat - 65536) % 1024)

/-- Body of a JSON string literal. -/
def encodeStringList : List Char → List Char
  | [] => []
  | c :: cs => encodeChar c ++ encodeStringList cs

/-- A whole JSON string literal, quotes included. -/
def dumpString (s : String) : List Char :=
  '"' :: (encodeStringList s.data ++ ['"'])

mutual

/-- Model of `json.dumps`, producing a character list: default separators
(`", "` and `": "`), no trailing whitespace. -/
def dumpsList : JValue → List Char
  | .str s => dumpString s
  | .arr [] => ['[', ']']
  | .arr (x :: xs) => '[' :: (dumpsList x ++ (dumpArrTail xs ++ [']']))
  | .obj [] => [lbrace, rbrace]
  | .obj ((k, v) :: fs) =>
    lbrace :: (dumpString k ++ ':' :: ' ' :: (dumpsList v ++ (dumpObjTail fs ++ [rbrace])))

/-- The `", item"` continuation of a serialized array. -/
def dumpArrTail : List JValue → List Char
  | [] => []
  | y :: ys => ',' :: ' ' :: (dumpsList y ++ dumpArrTail ys)

/-- The `", key: value"` continuation of a serialized object. -/
def dumpObjTail : List (String × JValue) → List Char
  | [] => []
  | (k, v) :: fs =>
    ',' :: ' ' :: (dumpString k ++ ':' :: ' ' :: (dumpsList v ++ dumpObjTail fs))

end

/-- Model of `json.dumps` of a value. -/
def dumps (v : JValue) : String := String.mk (dumpsList v)

/-- Skip JSON whitespace. -/
def skipWs : List Char → List Char
  | [] => []
  | c :: rest =>
    if c = ' ' ∨ c = '\n' ∨ c = '\t' ∨ c = '\r' then skipWs rest else c :: rest

/-- Prepend a decoded character to a string-body parse result. -/
def consResult (c : Char) : Option (List Char × List Char) → Option (List Char × List Char)
  | some (cs, rest) => some (c :: cs, rest)
  | none => none

mutual

/-- Parser for the body of a JSON string literal (the opening quote already
consumed), returning the decoded characters and the input after the closing
quote.  Escapes follow `json.loads`: the named escapes, `\uXXXX`, and
surrogate pairs combined into one character; raw control characters are
rejected (strict mode), as are lone surrogates (not representable as
scalar values). -/
def parseStringBody : List Char → Option (List Char × List Char)
  | [] => none
  | c :: rest =>
    if c = '"' then some ([], rest)
    else if c = '\\' then parseEsc rest
    else if c.toNat < 32 then none
    else consResult c (parseStringBody rest)

/-- The escape dispatch after a backslash. -/
def parseEsc : List Char → Option (List Char × List Char)
  | [] => none
  | e :: rest2 =>
    if e = '"' then consResult '"' (parseStringBody rest2)
    else if e = '\\' then consResult '\\' (parseStringBody rest2)
    else if e = '/' then consResult '/' (parseStringBody rest2)
    else if e = 'b' then consResult (Char.ofNat 8) (parseStringBody rest2)
    else if e = 'f' then consResult (Char.ofNat 12) (parseStringBody rest2)
    else if e = 'n' then consResult '\n' (parseStringBody rest2)
    else if e = 'r' then consResult '\r' (parseStringBody rest2)
    else if e = 't' then consResult '\t' (parseStringBody rest2)
    else if e = 'u' then parseU rest2
    else none

/-- A `\uXXXX` escape: a basic-plane value stands alone, a high surrogate
must be followed by a low surrogate, a lone low surrogate is rejected. -/
def parseU : List Char → Option (List Char × List Char)
  | h1 :: h2 :: h3 :: h4 :: rest3 =>
    match readHex4 h1 h2 h3 h4 with
    | none => none
    | some n =>
      if n < 55296 then consResult (Char.ofNat n) (parseStringBody rest3)
      else if n < 56320 then parsePair n rest3
      else if n < 57344 then none
      else consResult (Char.ofNat n) (parseStringBody rest3)
  | _ => none

/-- The low-surrogate half following a high surrogate `n`. -/
def parsePair (n : Nat) : List Char → Option (List Char × List Char)
  | b :: u :: g1 :: g2 :: g3 :: g4 :: rest4 =>
    if b = '\\' then
      if u = 'u' then
        match readHex4 g1 g2 g3 g4 with
        | none => none
        | some m =>
          if 56320 ≤ m then
            if m < 57344 then
              consResult (Char.ofNat (65536 + (n - 55296) * 1024 + (m - 56320)))
                (parseStringBody rest4)
            else none
          else none
      else none
    else none
  | _ => none

end

/-- One step of the value parser, over the lower-fuel parsers `pv` (value),
`pa` (array continuation) and `po` (object continuation); the input has
already had leading whitespace skipped. -/
def valueCore
    (pv : List Char → Option (JValue × List Char))
    (pa : List Char → Option (List JValue × List Char))
    (po : List Char → Option (List (String × JValue) × List Char)) :
    List Char → Option (JValue × List Char)
  | [] => none
  | c :: rest =>
    if c = '"' then
      match parseStringBody rest with
      | none => none
      | some (cs, r2) => some (.str (String.mk cs), r2)
    else if c = '[' then
      match skipWs rest with
      | [] => none
      | c2 :: r2 =>
        if c2 = ']' then some (.arr [], r2)
        else
          match pv (c2 :: r2) with
          | none => none
          | some (v, r3) =>
            match pa r3 with
            | none => none
            | some (vs, r4) => some (.arr (v :: vs), r4)
    else if c = lbrace then
      match skipWs rest with
      | [] => none
      | c2 :: r2 =>
        if c2 = rbrace then some (.obj [], r2)
        else if c2 = '"' then
          match parseStringBody r2 with
          | none => none
          | some (k, r3) =>
            match skipWs r3 with
            | [] => none
            | c3 :: r4 =>
              if c3 = ':' then
                match pv r4 with
                | none => none
                | some (v, r5) =>
                  match po r5 with
                  | none => none
                  | some (fs, r6) => some (.obj ((String.mk k, v) :: fs), r6)
              else none
        else none
    else none

/-- One step of the array-continuation parser: either the closing bracket,
or a comma followed by the next element. -/
def arrTailCore
    (pv : List Char → Option (JValue × List Char))
    (pa : List Char → Option (List JValue × List Char)) :
    List Char → Option (List JValue × List Char)
  | [] => none
  | c :: rest =>
    if c = ']' then some ([], rest)
    else if c = ',' then
      match pv rest with
      | none => none
      | some (v, r2) =>
        match pa r2 with
        | none => none
        | some (vs, r3) => some (v :: vs, r3)
    else none

/-- One step of the object-continuation parser: either the closing brace,
or a comma followed by the next key-value pair. -/
def objTailCore
    (pv : List Char → Option (JValue × List Char))
    (po : List Char → Option (List (String × JValue) × List Char)) :
    List Char → Option (List (String × JValue) × List Char)
  | [] => none
  | c :: rest =>
    if c = rbrace then some ([], rest)
    else if c = ',' then
      match skipWs rest with
      | [] => none
      | c2 :: r2 =>
        if c2 = '"' then
          match parseStringBody r2 with
          | none => none
          | some (k, r3) =>
            match skipWs r3 with
            | [] => none
            | c3 :: r4 =>
              if c3 = ':' then
                match pv r4 with
                | none => none
                | some (v, r5) =>
                  match po r5 with
                  | none => none
                  | some (fs, r6) => some ((String.mk k, v) :: fs, r6)
              else none
        else none
    else none

/-- The fuelled recursive parser: value parser, array continuation and
object continuation, each skipping leading whitespace and recursing at one
less fuel.  Fuel only bounds nesting depth; `loads` supplies an amply
sufficient amount. -/
def parseFns (fuel : Nat) :
    (List Char → Option (JValue × List Char))
    × (List Char → Option (List JValue × List Char))
    × (List Char → Option (List (String × JValue) × List Char)) :=
  match fuel with
  | 0 => (fun _ => none, fun _ => none, fun _ => none)
  | n + 1 =>
    let ps := parseFns n
    (fun cs => valueCore ps.1 ps.2.1 ps.2.2 (skipWs cs),
     fun cs => arrTailCore ps.1 ps.2.1 (skipWs cs),
     fun cs => objTailCore ps.1 ps.2.2 (skipWs cs))

/-- Model of `json.loads` on a character list: parse one value and require only
whitespace after it.  The fuel `2 * length + 1` amply bounds the nesting
depth of any value the parser could return from this input. -/
def loadsList (l : List Char) : Option JValue :=
  match (parseFns (2 * l.length + 1)).1 l with
  | some (v, rest) => if skipWs rest = [] then some v else none
  | none => none

/-- Model of `json.loads` of a string. -/
def loads (s : String) : Option JValue := loadsList s.data

mutual

/-- Fuel measure: the number of parser-recursion steps needed to re-parse a
serialized value. -/
def jsize : JValue → Nat
  | .str _ => 1
  | .arr xs => 2 + jsizeA xs
  | .obj fs => 2 + jsizeO fs

/-- Fuel measure of an array continuation. -/
def jsizeA : List JValue → Nat
  | [] => 0
  | x :: xs => 1 + jsize x + jsizeA xs

/-- Fuel measure of an object continuation. -/
def jsizeO : List (String × JValue) → Nat
  | [] => 0
  | (_, v) :: fs => 1 + jsize v + jsizeO fs

end

lemma decodeHex_hexDigit_fin : ∀ i : Fin 16, decodeHex (hexDigit i.val) = some i.val := by
  decide

lemma decodeHex_hexDigit (n : Nat) (h : n < 16) : decodeHex (hexDigit n) = some n :=
  decodeHex_hexDigit_fin ⟨n, h⟩

lemma readHex4_hex4 (n : Nat) (h : n < 65536) :
    readHex4 (hexDigit (n / 4096 % 16)) (hexDigit (n / 256 % 16))
      (hexDigit (n / 16 % 16)) (hexDigit (n % 16)) = some n := by
  unfold readHex4
  rw [decodeHex_hexDigit _ (by omega), decodeHex_hexDigit _ (by omega),
    decodeHex_hexDigit _ (by omega), decodeHex_hexDigit _ (by omega)]
  simp only [Option.some.injEq]
  omega

lemma char_toNat_valid (c : Char) :
    c.toNat < 55296 ∨ (57343 < c.toNat ∧ c.toNat < 1114112) := c.valid

lemma psb_backslash (rest : List Char) :
    parseStringBody ('\\' :: rest) = parseEsc rest := by
  rw [parseStringBody]
  rw [if_neg (by decide), if_pos rfl]

lemma parseEsc_u (rest : List Char) : parseEsc ('u' :: rest) = parseU rest := by
  rw [parseEsc]
  rw [if_neg (by decide), if_neg (by decide), if_neg (by decide), if_neg (by decide),
    if_neg (by decide), if_neg (by decide), if_neg (by decide), if_neg (by decide),
    if_pos rfl]

lemma parseU_hex4 (n : Nat) (rest : List Char) (h : n < 65536) :
    parseU (hex4 n ++ rest)
      = if n < 55296 then consResult (Char.ofNat n) (parseStringBody rest)
        else if n < 56320 then parsePair n rest
        else if n < 57344 then none
        else consResult (Char.ofNat n) (parseStringBody rest) := by
  rw [hex4]
  simp only [List.cons_append, List.nil_append]
  rw [parseU]
  rw [readHex4_hex4 n h]

lemma parsePair_hex4 (n m : Nat) (t : List Char) (h : m < 65536) :
    parsePair n ('\\' :: 'u' :: (hex4 m ++ t))
      = if 56320 ≤ m then
          if m < 57344 then
            consResult (Char.ofNat (65536 + (n - 55296) * 1024 + (m - 56320)))
              (parseStringBody t)
          else none
        else none := by
  rw [hex4]
  simp only [List.cons_append, List.nil_append]
  rw [parsePair]
  rw [if_pos rfl, if_pos rfl, readHex4_hex4 m h]

lemma psb_lit (c : Char) (t : List Char) (h1 : ¬ c = '"') (h2 : ¬ c = '\\')
    (h3 : ¬ c.toNat < 32) :
    parseStringBody (c :: t) = consResult c (parseStringBody t) := by
  rw [parseStringBody]
  rw [if_neg h1, if_neg h2, if_neg h3]

lemma psb_u_low (n : Nat) (t : List Char) (h : n < 55296) :
    parseStringBody ('\\' :: 'u' :: (hex4 n ++ t))
      = consResult (Char.ofNat n) (parseStringBody t) := by
  rw [psb_backslash, parseEsc_u, parseU_hex4 n t (by omega), if_pos h]

lemma psb_u_high (n : Nat) (t : List Char) (h : 57343 < n) (h2 : n < 65536) :
    parseStringBody ('\\' :: 'u' :: (hex4 n ++ t))
      = consResult (Char.ofNat n) (parseStringBody t) := by
  rw [psb_backslash, parseEsc_u, parseU_hex4 n t h2]
  rw [if_neg (by omega), if_neg (by omega), if_neg (by omega)]

lemma psb_u_pair (n m : Nat) (t : List Char) (hn : 55296 ≤ n) (hn2 : n < 56320)
    (hm : 56320 ≤ m) (hm2 : m < 57344) :
    parseStringBody ('\\' :: 'u' :: (hex4 n ++ ('\\' :: 'u' :: (hex4 m ++ t))))
      = consResult (Char.ofNat (65536 + (n - 55296) * 1024 + (m - 56320)))
          (parseStringBody t) := by
  rw [psb_backslash, parseEsc_u, parseU_hex4 n _ (by omega)]
  rw [if_neg (by omega), if_pos hn2]
  rw [parsePair_hex4 n m t (by omega)]
  rw [if_pos hm, if_pos hm2]

lemma parse_encodeChar (c : Char) (t : List Char) :
    parseStringBody (encodeChar c ++ t) = consResult c (parseStringBody t) := by
  by_cases h1 : c = '"'
  · subst h1
    rw [show encodeChar '"' = ['\\', '"'] from by decide]
    simp only [List.cons_append, List.nil_append]
    rw [psb_backslash]
    simp [parseEsc]
  by_cases h2 : c = '\\'
  · subst h2
    rw [show encodeChar '\\' = ['\\', '\\'] from by decide]
    simp only [List.cons_append, List.nil_append]
    rw [psb_backslash]
    simp [parseEsc]
  by_cases h3 : c = '\n'
  · subst h3
    rw [show encodeChar '\n' = ['\\', 'n'] from by decide]
    simp only [List.cons_append, List.nil_append]
    rw [psb_backslash]
    simp [parseEsc]
  by_cases h4 : c = '\r'
  · subst h4
    rw [show encodeChar '\r' = ['\\', 'r'] from by decide]
    simp only [List.cons_append, List.nil_append]
    rw [psb_backslash]
    simp [parseEsc]
  by_cases h5 : c = '\t'
  · subst h5
    rw [show encodeChar '\t' = ['\\', 't'] from by decide]
    simp only [List.cons_append, List.nil_append]
    rw [psb_backslash]
    simp [parseEsc]
  by_cases h6 : c = Char.ofNat 8
  · subst h6
    rw [show encodeChar (Char.ofNat 8) = ['\\', 'b'] from by decide]
    simp only [List.cons_append, List.nil_append]
    rw [psb_backslash]
    simp [parseEsc]
  by_cases h7 : c = Char.ofNat 12
  · subst h7
    rw [show encodeChar (Char.ofNat 12) = ['\\', 'f'] from by decide]
    simp only [List.cons_append, List.nil_append]
    rw [psb_backslash]
    simp [parseEsc]
  by_cases h8 : c.toNat < 32
  · have henc : encodeChar c = '\\' :: 'u' :: hex4 c.toNat := by
      rw [encodeChar]
      rw [if_neg h1, if_neg h2, if_neg h3, if_neg h4, if_neg h5, if_neg h6, if_neg h7,
        if_pos h8]
    rw [henc]
    simp only [List.cons_append]
    rw [psb_u_low c.toNat t (by omega), Char.ofNat_toNat]
  by_cases h9 : c.toNat < 127
  · have henc : encodeChar c = [c] := by
      rw [encodeChar]
      rw [if_neg h1, if_neg h2, if_neg h3, if_neg h4, if_neg h5, if_neg h6, if_neg h7,
        if_neg h8, if_pos h9]
    rw [henc]
    simp only [List.cons_append, List.nil_append]
    rw [psb_lit c t h1 h2 h8]
  by_cases h10 : c.toNat < 65536
  · have henc : encodeChar c = '\\' :: 'u' :: hex4 c.toNat := by
      rw [encodeChar]
      rw [if_neg h1, if_neg h2, if_neg h3, if_neg h4, if_neg h5, if_neg h6, if_neg h7,
        if_neg h8, if_neg h9, if_pos h10]
    rw [henc]
    simp only [List.cons_append]
    rcases char_toNat_valid c with hv | hv
    · rw [psb_u_low c.toNat t hv, Char.ofNat_toNat]
    · rw [psb_u_high c.toNat t hv.1 h10, Char.ofNat_toNat]
  · have henc : encodeChar c
        = ('\\' :: 'u' :: hex4 (55296 + (c.toNat - 65536) / 1024))
          ++ ('\\' :: 'u' :: hex4 (56320 + (c.toNat - 65536) % 1024)) := by
      rw [encodeChar]
      rw [if_neg h1, if_neg h2, if_neg h3, if_neg h4, if_neg h5, if_neg h6, if_neg h7,
        if_neg h8, if_neg h9, if_neg h10]
    rw [henc]
    rcases char_toNat_valid c with hv | hv
    · exact absurd hv (by omega)
    · simp only [List.append_assoc, List.cons_append]
      rw [psb_u_pair (55296 + (c.toNat - 65536) / 1024) (56320 + (c.toNat - 65536) % 1024)
        t (by omega) (by omega) (by omega) (by omega)]
      have harg : 65536 + (55296 + (c.toNat - 65536) / 1024 - 55296) * 1024
          + (56320 + (c.toNat - 65536) % 1024 - 56320) = c.toNat := by omega
      rw [harg, Char.ofNat_toNat]

lemma parseStringBody_encode (l : List Char) (k : List Char) :
    parseStringBody (encodeStringList l ++ '"' :: k) = some (l, k) := by
  induction l with
  | nil =>
    rw [encodeStringList]
    simp only [List.nil_append]
    rw [parseStringBody]
    rw [if_pos rfl]
  | cons c cs ih =>
    rw [encodeStringList, List.append_assoc, parse_encodeChar, ih]
    rfl

lemma skipWs_not_ws (c : Char) (l : List Char)
    (h : ¬ (c = ' ' ∨ c = '\n' ∨ c = '\t' ∨ c = '\r')) : skipWs (c :: l) = c :: l := by
  rw [skipWs]
  rw [if_neg h]

lemma skipWs_space (l : List Char) : skipWs (' ' :: l) = skipWs l := by
  rw [skipWs]
  rw [if_pos (Or.inl rfl)]

lemma dumps_head (v : JValue) :
    ∃ c cs, dumpsList v = c :: cs ∧ (c = '"' ∨ c = '[' ∨ c = lbrace) := by
  cases v with
  | str s =>
    refine ⟨'"', encodeStringList s.data ++ ['"'], ?_, Or.inl rfl⟩
    rw [dumpsList, dumpString]
  | arr xs =>
    cases xs with
    | nil =>
      refine ⟨'[', [']'], ?_, Or.inr (Or.inl rfl)⟩
      rw [dumpsList]
    | cons x xs =>
      refine ⟨'[', dumpsList x ++ (dumpArrTail xs ++ [']']), ?_, Or.inr (Or.inl rfl)⟩
      rw [dumpsList]
  | obj fs =>
    rcases fs with _ | ⟨⟨k, w⟩, fs⟩
    · refine ⟨lbrace, [rbrace], ?_, Or.inr (Or.inr rfl)⟩
      rw [dumpsList]
    · refine ⟨lbrace,
        dumpString k ++ ':' :: ' ' :: (dumpsList w ++ (dumpObjTail fs ++ [rbrace])),
        ?_, Or.inr (Or.inr rfl)⟩
      rw [dumpsList]

lemma skipWs_dumps (v : JValue) (r : List Char) :
    skipWs (dumpsList v ++ r) = dumpsList v ++ r := by
  obtain ⟨c, cs, hd, hc⟩ := dumps_head v
  rw [hd]
  simp only [List.cons_append]
  apply skipWs_not_ws
  rcases hc with rfl | rfl | rfl
  · decide
  · decide
  · decide

lemma dumps_head_ne_rsquare (v : JValue) :
    ∀ c cs, dumpsList v = c :: cs → ¬ c = ']' := by
  intro c cs hd
  obtain ⟨c2, cs2, hd2, hc⟩ := dumps_head v
  rw [hd] at hd2
  injection hd2 with h1 _
  subst h1
  rcases hc with rfl | rfl | rfl
  · decide
  · decide
  · decide

lemma dumps_head_ne_rbrace (v : JValue) :
    ∀ c cs, dumpsList v = c :: cs → ¬ c = rbrace := by
  intro c cs hd
  obtain ⟨c2, cs2, hd2, hc⟩ := dumps_head v
  rw [hd] at hd2
  injection hd2 with h1 _
  subst h1
  rcases hc with rfl | rfl | rfl
  · decide
  · decide
  · decide

lemma jsize_pos (v : JValue) : 1 ≤ jsize v := by
  cases v with
  | str s => rw [jsize]
  | arr xs => rw [jsize]; omega
  | obj fs => rw [jsize]; omega

lemma parseFns_fst_space (n : Nat) (cs : List Char) :
    (parseFns n).1 (' ' :: cs) = (parseFns n).1 cs := by
  cases n with
  | zero => rfl
  | succ m =>
    simp only [parseFns]
    rw [skipWs_space]

lemma parse_roundtrip (fuel : Nat) :
    (∀ (v : JValue) (r : List Char), jsize v ≤ fuel →
      (parseFns fuel).1 (dumpsList v ++ r) = some (v, r))
    ∧ (∀ (xs : List JValue) (r : List Char), 1 + jsizeA xs ≤ fuel →
      (parseFns fuel).2.1 (dumpArrTail xs ++ ']' :: r) = some (xs, r))
    ∧ (∀ (fs : List (String × JValue)) (r : List Char), 1 + jsizeO fs ≤ fuel →
      (parseFns fuel).2.2 (dumpObjTail fs ++ rbrace :: r) = some (fs, r)) := by
  induction fuel with
  | zero =>
    refine ⟨?_, ?_, ?_⟩
    · intro v r h
      exact absurd h (by have := jsize_pos v; omega)
    · intro xs r h
      exact absurd h (by omega)
    · intro fs r h
      exact absurd h (by omega)
  | succ n ih =>
    obtain ⟨ihv, iha, iho⟩ := ih
    refine ⟨?_, ?_, ?_⟩
    · intro v r h
      simp only [parseFns]
      rw [skipWs_dumps]
      cases v with
      | str s =>
        rw [dumpsList, dumpString]
        simp only [List.cons_append, List.append_assoc, List.nil_append]
        rw [valueCore]
        rw [if_pos rfl]
        rw [parseStringBody_encode]
      | arr xs =>
        cases xs with
        | nil =>
          rw [dumpsList]
          simp only [List.cons_append, List.nil_append]
          rw [valueCore]
          rw [if_neg (by decide), if_pos rfl]
          rw [skipWs_not_ws ']' r (by decide)]
          simp only [reduceIte]
        | cons x xs =>
          rw [jsize, jsizeA] at h
          rw [dumpsList]
          simp only [List.cons_append, List.append_assoc, List.nil_append]
          rw [valueCore]
          rw [if_neg (by decide), if_pos rfl]
          rw [skipWs_dumps x (dumpArrTail xs ++ ']' :: r)]
          obtain ⟨c, cs, hd, hc⟩ := dumps_head x
          rw [hd]
          simp only [List.cons_append]
          rw [if_neg (dumps_head_ne_rsquare x c cs hd)]
          rw [show c :: (cs ++ (dumpArrTail xs ++ ']' :: r))
              = dumpsList x ++ (dumpArrTail xs ++ ']' :: r) from by
            rw [hd]; simp only [List.cons_append]]
          rw [ihv x (dumpArrTail xs ++ ']' :: r) (by omega)]
          simp only []
          rw [iha xs r (by omega)]
      | obj fs =>
        rcases fs with _ | ⟨⟨k, w⟩, fs⟩
        · rw [dumpsList]
          simp only [List.cons_append, List.nil_append]
          rw [valueCore]
          rw [if_neg (by decide), if_neg (by decide), if_pos rfl]
          rw [skipWs_not_ws rbrace r (by decide)]
          simp only [reduceIte]
        · rw [jsize, jsizeO] at h
          rw [dumpsList, dumpString]
          simp only [List.cons_append, List.append_assoc, List.nil_append]
          rw [valueCore]
          rw [if_neg (by decide), if_neg (by decide), if_pos rfl]
          rw [skipWs_not_ws '"' _ (by decide)]
          simp only []
          rw [if_neg (show ¬ ('"' : Char) = rbrace from by decide)]
          simp only [reduceIte]
          rw [parseStringBody_encode]
          simp only []
          rw [skipWs_not_ws ':' _ (by decide)]
          simp only [reduceIte]
          rw [parseFns_fst_space]
          rw [ihv w (dumpObjTail fs ++ rbrace :: r) (by omega)]
          simp only []
          rw [iho fs r (by omega)]
    · intro xs r h
      simp only [parseFns]
      cases xs with
      | nil =>
        rw [dumpArrTail]
        simp only [List.nil_append]
        rw [skipWs_not_ws ']' r (by decide)]
        rw [arrTailCore]
        rw [if_pos rfl]
      | cons y ys =>
        rw [jsizeA] at h
        rw [dumpArrTail]
        simp only [List.cons_append, List.append_assoc, List.nil_append]
        rw [skipWs_not_ws ',' _ (by decide)]
        rw [arrTailCore]
        rw [if_neg (by decide), if_pos rfl]
        rw [parseFns_fst_space]
        rw [ihv y (dumpArrTail ys ++ ']' :: r) (by omega)]
        simp only []
        rw [iha ys r (by omega)]
    · intro fs r h
      simp only [parseFns]
      rcases fs with _ | ⟨⟨k, w⟩, fs⟩
      · rw [dumpObjTail]
        simp only [List.nil_append]
        rw [skipWs_not_ws rbrace r (by decide)]
        rw [objTailCore]
        rw [if_pos rfl]
      · rw [jsizeO] at h
        rw [dumpObjTail, dumpString]
        simp only [List.cons_append, List.append_assoc, List.nil_append]
        rw [skipWs_not_ws ',' _ (by decide)]
        rw [objTailCore]
        rw [if_neg (by decide), if_pos rfl]
        rw [skipWs_space]
        rw [skipWs_not_ws '"' _ (by decide)]
        simp only [reduceIte]
        rw [parseStringBody_encode]
        simp only []
        rw [skipWs_not_ws ':' _ (by decide)]
        simp only [reduceIte]
        rw [parseFns_fst_space]
        rw [ihv w (dumpObjTail fs ++ rbrace :: r) (by omega)]
        simp only []
        rw [iho fs r (by omega)]

lemma jsizeA_le (xs : List JValue)
    (h : ∀ x ∈ xs, jsize x ≤ 2 * (dumpsList x).length) :
    jsizeA xs ≤ 2 * (dumpArrTail xs).length := by
  induction xs with
  | nil => rw [jsizeA]; omega
  | cons y ys ih =>
    rw [jsizeA, dumpArrTail]
    simp only [List.length_cons, List.length_append]
    have h1 := h y (List.mem_cons_self y ys)
    have h2 := ih (fun x hx => h x (List.mem_cons_of_mem y hx))
    omega

lemma jsizeO_le (fs : List (String × JValue))
    (h : ∀ p ∈ fs, jsize p.2 ≤ 2 * (dumpsList p.2).length) :
    jsizeO fs ≤ 2 * (dumpObjTail fs).length := by
  induction fs with
  | nil => rw [jsizeO]; omega
  | cons p fs ih =>
    obtain ⟨k, w⟩ := p
    rw [jsizeO, dumpObjTail]
    simp only [List.length_cons, List.length_append]
    have h1 : jsize w ≤ 2 * (dumpsList w).length := h (k, w) (List.mem_cons_self _ _)
    have h2 := ih (fun x hx => h x (List.mem_cons_of_mem _ hx))
    omega

lemma jsize_le_dumps : ∀ (N : Nat) (v : JValue), sizeOf v ≤ N →
    jsize v ≤ 2 * (dumpsList v).length := by
  intro N
  induction N with
  | zero =>
    intro v h
    exact absurd h (by cases v <;> simp_arith)
  | succ N ih =>
    intro v hv
    cases v with
    | str s =>
      rw [jsize, dumpsList, dumpString]
      simp only [List.length_cons, List.length_append]
      omega
    | arr xs =>
      have hmem : ∀ x ∈ xs, jsize x ≤ 2 * (dumpsList x).length := by
        intro x hx
        apply ih
        have h1 := List.sizeOf_lt_of_mem hx
        have h2 : sizeOf (JValue.arr xs) = 1 + sizeOf xs := by simp_arith
        omega
      cases xs with
      | nil => rw [jsize, jsizeA, dumpsList]; simp
      | cons x xs2 =>
        rw [jsize, jsizeA, dumpsList]
        simp only [List.length_cons, List.length_append]
        have h1 := hmem x (List.mem_cons_self _ _)
        have h2 : jsizeA xs2 ≤ 2 * (dumpArrTail xs2).length :=
          jsizeA_le xs2 (fun y hy => hmem y (List.mem_cons_of_mem _ hy))
        omega
    | obj fs =>
      have hmem : ∀ p ∈ fs, jsize p.2 ≤ 2 * (dumpsList p.2).length := by
        intro p hp
        apply ih
        have h1 := List.sizeOf_lt_of_mem hp
        have h2 : sizeOf (JValue.obj fs) = 1 + sizeOf fs := by simp_arith
        have h3 : sizeOf p.2 ≤ sizeOf p := by
          obtain ⟨k, w⟩ := p
          simp_arith
        omega
      rcases fs with _ | ⟨⟨k, w⟩, fs2⟩
      · rw [jsize, jsizeO, dumpsList]; simp
      · rw [jsize, jsizeO, dumpsList, dumpString]
        simp only [List.length_cons, List.length_append]
        have h1 : jsize w ≤ 2 * (dumpsList w).length := hmem (k, w) (List.mem_cons_self _ _)
        have h2 : jsizeO fs2 ≤ 2 * (dumpObjTail fs2).length :=
          jsizeO_le fs2 (fun y hy => hmem y (List.mem_cons_of_mem _ hy))
        omega

lemma loadsList_dumpsList (v : JValue) : loadsList (dumpsList v) = some v := by
  have hlen := jsize_le_dumps (sizeOf v) v le_rfl
  have h := (parse_roundtrip (2 * (dumpsList v).length + 1)).1 v [] (by omega)
  rw [List.append_nil] at h
  rw [loadsList]
  rw [h]
  simp [skipWs]

/-- Serializing any value with `dumps` and parsing it back with `loads`
returns the same value. -/
lemma loads_dumps (v : JValue) : loads (dumps v) = some v := loadsList_dumpsList v

/-- Claim C8: serializing a PreferenceRecord to its JSON text (as the
notebook's JSON-lines writer does) and parsing that text back yields a
structurally equal record. -/
theorem preference_record_json_roundtrip (p : PreferenceRecord) :
    loads (dumps p.toJValue) = some p.toJValue := loads_dumps p.toJValue

end DPO